import Mathlib

/- Shallow embedding of the publish-decision pipeline of src/src/bluesky.js:
   feed parsing (getLatestRSSPost), the paginated duplicate scan
   (hasLinkBeenPosted), link-facet construction (the url branch of
   sendBlueskyPost), and the orchestration (postLatestToBluesky).
   JavaScript strings are modelled as lists of Unicode scalars; JavaScript
   String.prototype.length and String.prototype.indexOf count UTF-16 code
   units, which `utf16Len` makes explicit, while facet consumers index by
   UTF-8 bytes, made explicit by `utf8Len`. -/

abbrev Str := List Char

/-- UTF-16 code units occupied by one scalar: 1 below U+10000, else 2
(a surrogate pair). This is the unit JavaScript string length counts. -/
def cuLen (c : Char) : Nat := if c.toNat < 0x10000 then 1 else 2

/-- JavaScript string length semantics: total UTF-16 code units. -/
def utf16Len (s : Str) : Nat := (s.map cuLen).sum

/-- UTF-8 encoded byte count of one scalar. -/
def u8Len (c : Char) : Nat :=
  if c.toNat < 0x80 then 1
  else if c.toNat < 0x800 then 2
  else if c.toNat < 0x10000 then 3
  else 4

/-- UTF-8 byte length of a string. -/
def utf8Len (s : Str) : Nat := (s.map u8Len).sum

/-- Whether the first list is an initial segment of the second. -/
def isPrefixC : Str → Str → Bool
  | [], _ => true
  | _ :: _, [] => false
  | a :: ps, b :: ss => a == b && isPrefixC ps ss

/-- Scalar index of the first occurrence of `pat` in the scanned string,
mirroring JavaScript indexOf (which, for strings free of lone surrogates,
matches only at scalar boundaries). -/
def charIndexOf (pat : Str) : Str → Option Nat
  | [] => if isPrefixC pat [] then some 0 else none
  | c :: rest =>
      if isPrefixC pat (c :: rest) then some 0
      else (charIndexOf pat rest).map (fun k => k + 1)

/-- The UTF-8 byte offset of the first occurrence of `pat` in `s`:
the byte length of the text preceding the match. -/
def utf8IndexOf (pat s : Str) : Option Nat :=
  (charIndexOf pat s).map (fun k => utf8Len (s.take k))

/-- Facet byte range as stored in the outgoing record
(index.byteStart / index.byteEnd, bluesky.js lines 211-214). -/
structure FacetIndex where
  byteStart : Nat
  byteEnd : Nat
deriving DecidableEq, Repr

/-- Embeds the url branch of sendBlueskyPost (bluesky.js lines 192-222),
called buildLinkFacet in the design document. Found branch: byteStart is
text.indexOf(url) and byteEnd adds url.length, both in UTF-16 code units
(the scalar index of the match is converted to the code-unit index the
JavaScript call returns). Append branch: a single space separator unless
text.endsWith a space character, and the bounds come from
record.text.length - url.length and record.text.length. -/
def buildLinkFacet (text url : Str) : Str × FacetIndex :=
  match charIndexOf url text with
  | some k =>
      let s := utf16Len (text.take k)
      (text, ⟨s, s + utf16Len url⟩)
  | none =>
      let sep : Str := if text.getLast? = some ' ' then [] else [' ']
      let t := text ++ sep ++ url
      (t, ⟨utf16Len t - utf16Len url, utf16Len t⟩)

example : buildLinkFacet "Check this: https://x.test/a".toList "https://x.test/a".toList
    = ("Check this: https://x.test/a".toList, ⟨12, 28⟩) := by decide

example : buildLinkFacet "Check this out".toList "https://x.test/a".toList
    = ("Check this out https://x.test/a".toList, ⟨15, 31⟩) := by decide

/-- One facet feature as read back from a history post:
its dollar-type tag and its uri (bluesky.js lines 125-131). -/
structure Feature where
  ftype : Str
  uri : Str
deriving DecidableEq

/-- One facet of a history post; its features array may be absent. -/
structure Facet where
  features : Option (List Feature)
deriving DecidableEq

/-- A history post record: text and facets may each be absent. -/
structure PostRec where
  text : Option Str
  facets : Option (List Facet)
deriving DecidableEq

/-- One item of a fetched author-feed page; `post` models
feedItem.post?.record, absent when the item has no readable record. -/
structure FeedItem where
  post : Option PostRec
deriving DecidableEq

def linkFeatureType : Str := "app.bsky.richtext.facet#link".toList

/-- The per-post match of hasLinkBeenPosted (bluesky.js lines 116-135):
the link occurs in the post text (text must be truthy, i.e. non-empty),
or some facet feature is a link feature whose uri equals the link. -/
def postMatches (link : Str) (p : PostRec) : Bool :=
  (match p.text with
   | some t => !t.isEmpty && (charIndexOf link t).isSome
   | none => false)
  ||
  (match p.facets with
   | some fs =>
       fs.any (fun fa =>
         match fa.features with
         | some feats => feats.any (fun f => f.ftype == linkFeatureType && f.uri == link)
         | none => false)
   | none => false)

/-- Whether a feed item matches: items without a readable record never do. -/
def itemMatches (link : Str) (it : FeedItem) : Bool :=
  match it.post with
  | none => false
  | some p => postMatches link p

/-- The inner for-loop of hasLinkBeenPosted over one page
(bluesky.js lines 110-136): postsChecked is incremented for every item,
before the record-presence check; returns (found, postsChecked). -/
def scanPage (link : Str) : List FeedItem → Nat → Bool × Nat
  | [], checked => (false, checked)
  | it :: rest, checked =>
      match it.post with
      | none => scanPage link rest (checked + 1)
      | some p =>
          if postMatches link p then (true, checked + 1)
          else scanPage link rest (checked + 1)

/-- The while-loop of hasLinkBeenPosted (bluesky.js lines 98-141) over the
successive pages the server would return, threading postsChecked; the loop
guard postsChecked < 100 is evaluated before each fetch, and an exhausted
page list models an empty continuation cursor. Returns
(found, number of page requests issued). -/
def scanPagesCount (link : Str) : List (List FeedItem) → Nat → Bool × Nat
  | [], _ => (false, 0)
  | page :: rest, checked =>
      if checked < 100 then
        match scanPage link page checked with
        | (true, _) => (true, 1)
        | (false, c) =>
            match scanPagesCount link rest c with
            | (found, reqs) => (found, reqs + 1)
      else (false, 0)

/-- Fuel-driven splitting of the full history into pages of at most 100
items, the page size hasLinkBeenPosted requests (limit: 100). -/
def chunkPagesGo : Nat → List FeedItem → List (List FeedItem)
  | _, [] => []
  | 0, _ => []
  | n + 1, x :: xs => ((x :: xs).take 100) :: chunkPagesGo n ((x :: xs).drop 100)

/-- The pages a compliant server returns for a stored history when asked
for up to 100 items per request, with an empty cursor after the last. -/
def chunkPages (l : List FeedItem) : List (List FeedItem) :=
  chunkPagesGo l.length l

/-- The duplicate scan run against a stored history paginated by 100:
result and number of page requests issued. -/
def hasLinkBeenPostedRun (history : List FeedItem) (link : Str) : Bool × Nat :=
  scanPagesCount link (chunkPages history) 0

/-- hasLinkBeenPosted, bluesky.js lines 89-152, for runs whose page
fetches all succeed. -/
def hasLinkBeenPosted (history : List FeedItem) (link : Str) : Bool :=
  (hasLinkBeenPostedRun history link).1

/-- The while-loop of hasLinkBeenPosted when page fetches may throw
(network failure or a response the client fails to parse): a response
stream entry Except.error models a fetch whose await throws, which aborts
the loop with the exception. -/
def scanPagesE (link : Str) : List (Except Unit (List FeedItem)) → Nat → Except Unit Bool
  | [], _ => .ok false
  | r :: rest, checked =>
      if checked < 100 then
        match r with
        | .error e => .error e
        | .ok page =>
            match scanPage link page checked with
            | (true, _) => .ok true
            | (false, c) => scanPagesE link rest c
      else .ok false

/-- hasLinkBeenPosted with its surrounding try/catch (bluesky.js lines
90 and 144-151): any exception from the loop is caught, a warning is
logged, and false is returned. -/
def hasLinkBeenPostedE (link : Str) (responses : List (Except Unit (List FeedItem))) : Bool :=
  match scanPagesE link responses 0 with
  | .error _ => false
  | .ok b => b

/-- Whether a modelled fetch result is a thrown exception. -/
def isThrown {α : Type} : Except Unit α → Bool
  | .error _ => true
  | .ok _ => false

/-- A history item with no readable post record. -/
def blankItem : FeedItem := ⟨none⟩

/-- A history item whose post text is exactly the given string. -/
def textItem (s : Str) : FeedItem := ⟨some ⟨some s, none⟩⟩

example : hasLinkBeenPostedRun [textItem "u".toList, blankItem] "u".toList = (true, 1) := by decide
example : hasLinkBeenPostedRun [blankItem, blankItem] "u".toList = (false, 1) := by decide
example : hasLinkBeenPostedRun [] "u".toList = (false, 0) := by decide

/-- Observable effects of a run: the local feed-document read and the
three kinds of network round-trips. -/
inductive Ev
  | readFeed
  | auth
  | fetchPage
  | createRecord
deriving DecidableEq, Repr

/-- Which effects are network round-trips (the feed read is a local,
synchronous readFileSync). -/
def isNetwork : Ev → Bool
  | .readFeed => false
  | .auth => true
  | .fetchPage => true
  | .createRecord => true

/-- Error outcomes of the pipeline, named after the design document's
taxonomy; postLatestToBluesky maps each of them to a logged message and
process.exit(1). -/
inductive Err
  | configError
  | authError
  | parseError
  | noLink
  | emptyText
  | publishError
deriving DecidableEq, Repr

deriving instance DecidableEq for Except

/-- One parsed feed item: title and link may each be absent. -/
structure RssItem where
  title : Option Str
  link : Option Str
deriving DecidableEq

/-- The entry getLatestRSSPost returns (bluesky.js lines 73-76). -/
structure RssEntry where
  title : Str
  link : Str
deriving DecidableEq

/-- The environment a run executes against: the two credential variables
(absent, or a string that may be empty and hence falsy), whether the
remote accepts the credentials, the parsed feed items (none models a
document whose items field is missing), the stored post history, and
whether record creation succeeds. -/
structure Env where
  username : Option Str
  password : Option Str
  authOk : Bool
  feedItems : Option (List RssItem)
  history : List FeedItem
  createOk : Bool

/-- JavaScript truthiness of an optional string: present and non-empty. -/
def truthyS : Option Str → Bool
  | some (_ :: _) => true
  | _ => false

/-- getBlueskyAgent (bluesky.js lines 30-49): both credential checks run
before the agent is built, so a missing credential produces ConfigError
with no network traffic; otherwise one login round-trip is issued and
fails with AuthError when the remote rejects the credentials. -/
def getBlueskyAgentM (env : Env) : Except Err Unit × List Ev :=
  if truthyS env.username = false then (.error .configError, [])
  else if truthyS env.password = false then (.error .configError, [])
  else if env.authOk then (.ok (), [.auth])
  else (.error .authError, [.auth])

/-- getLatestRSSPost (bluesky.js lines 62-77) after the local read and
parse: a missing items field or zero items throws; otherwise the item at
position 0 is returned with title and link defaulted to the empty
string. -/
def getLatestRSSPostM (feedItems : Option (List RssItem)) : Except Err RssEntry :=
  match feedItems with
  | none => .error .parseError
  | some [] => .error .parseError
  | some (it :: _) => .ok ⟨it.title.getD [], it.link.getD []⟩

/-- The outgoing record as far as the claims observe it: final text and
the optional link facet. -/
structure OutRecord where
  text : Str
  facet : Option FacetIndex
deriving DecidableEq

/-- Record construction inside sendBlueskyPost (bluesky.js lines 184-223):
the facet is attached only when url is truthy. -/
def buildRecord (text url : Str) : OutRecord :=
  if url.isEmpty then ⟨text, none⟩
  else
    match buildLinkFacet text url with
    | (t, f) => ⟨t, some f⟩

/-- sendBlueskyPost (bluesky.js lines 177-233): rejects empty text, then
authenticates again via getBlueskyAgent, then issues the createRecord
round-trip, which either returns the record or fails the run. -/
def sendBlueskyPostM (env : Env) (text url : Str) : Except Err OutRecord × List Ev :=
  if text.isEmpty then (.error .emptyText, [])
  else
    match getBlueskyAgentM env with
    | (.error e, evs) => (.error e, evs)
    | (.ok _, evs) =>
        if env.createOk then (.ok (buildRecord text url), evs ++ [.createRecord])
        else (.error .publishError, evs ++ [.createRecord])

def newPostFallback : Str := "New post".toList

/-- postLatestToBluesky (bluesky.js lines 256-294): read and parse the
feed locally, fail on a missing link, authenticate, run the duplicate
scan, return successfully with no submission when the link was already
posted, otherwise build the post text (falling back to "New post" for an
empty title) and send; the catch block maps any thrown error to
process.exit(1), modelled as the error result. -/
def postLatestToBlueskyM (env : Env) : Except Err Unit × List Ev :=
  match getLatestRSSPostM env.feedItems with
  | .error e => (.error e, [.readFeed])
  | .ok entry =>
      if entry.link.isEmpty then (.error .noLink, [.readFeed])
      else
        match getBlueskyAgentM env with
        | (.error e, evs) => (.error e, .readFeed :: evs)
        | (.ok _, evs1) =>
            match hasLinkBeenPostedRun env.history entry.link with
            | (found, reqs) =>
                let evs2 := evs1 ++ List.replicate reqs .fetchPage
                if found then (.ok (), .readFeed :: evs2)
                else
                  let postText := if entry.title.isEmpty then newPostFallback else entry.title
                  match sendBlueskyPostM env postText entry.link with
                  | (.error e, evs3) => (.error e, .readFeed :: (evs2 ++ evs3))
                  | (.ok _, evs3) => (.ok (), .readFeed :: (evs2 ++ evs3))

/-- A fully healthy environment whose feed entry is new: the run reaches
submission. -/
def envFresh : Env :=
  { username := some "u".toList
    password := some "p".toList
    authOk := true
    feedItems := some [⟨some "T".toList, some "https://x.test/a".toList⟩]
    history := [blankItem]
    createOk := true }

/-- A healthy environment whose feed entry's link already occurs in the
stored history. -/
def envDup : Env :=
  { username := some "u".toList
    password := some "p".toList
    authOk := true
    feedItems := some [⟨some "T".toList, some "https://x.test/a".toList⟩]
    history := [textItem "seen https://x.test/a already".toList]
    createOk := true }

/-- An environment with the username credential unset. -/
def envNoUser : Env :=
  { username := none
    password := some "p".toList
    authOk := true
    feedItems := some [⟨some "T".toList, some "https://x.test/a".toList⟩]
    history := []
    createOk := true }

example : (postLatestToBlueskyM envFresh).2
    = [.readFeed, .auth, .fetchPage, .auth, .createRecord] := by decide
example : (postLatestToBlueskyM envDup).2 = [.readFeed, .auth, .fetchPage] := by decide
example : (postLatestToBlueskyM envDup).1 = .ok () := by decide
example : postLatestToBlueskyM envNoUser = (.error .configError, [.readFeed]) := by decide

theorem isPrefixC_self : ∀ l : Str, isPrefixC l l = true
  | [] => rfl
  | c :: rest => by simp [isPrefixC, isPrefixC_self rest]

theorem charIndexOf_self : ∀ l : Str, charIndexOf l l = some 0
  | [] => rfl
  | c :: rest => by simp [charIndexOf, isPrefixC_self]

theorem scanPage_found (link : Str) : ∀ (l : List FeedItem) (c : Nat),
    (scanPage link l c).1 = l.any (itemMatches link)
  | [], _ => by simp [scanPage]
  | it :: rest, c => by
      cases hp : it.post with
      | none => simp [scanPage, hp, itemMatches, scanPage_found link rest (c + 1)]
      | some p =>
          by_cases hm : postMatches link p = true
          · simp [scanPage, hp, itemMatches, hm]
          · simp [scanPage, hp, itemMatches, hm, scanPage_found link rest (c + 1)]

theorem scanPage_nomatch (link : Str) : ∀ (l : List FeedItem) (c : Nat),
    l.any (itemMatches link) = false → scanPage link l c = (false, c + l.length)
  | [], c, _ => by simp [scanPage]
  | it :: rest, c, h => by
      have h1 : itemMatches link it = false := by
        simp only [List.any_cons, Bool.or_eq_false_iff] at h
        exact h.1
      have h2 : rest.any (itemMatches link) = false := by
        simp only [List.any_cons, Bool.or_eq_false_iff] at h
        exact h.2
      have ih := scanPage_nomatch link rest (c + 1) h2
      cases hp : it.post with
      | none =>
          simp only [scanPage, hp, ih, List.length_cons, Prod.mk.injEq]
          exact ⟨trivial, by omega⟩
      | some p =>
          have hm : postMatches link p = false := by
            simpa [itemMatches, hp] using h1
          simp only [scanPage, hp, hm, Bool.false_eq_true, if_false, ih, List.length_cons,
            Prod.mk.injEq]
          exact ⟨trivial, by omega⟩

theorem scanPagesCount_ceiling (link : Str) (pages : List (List FeedItem)) (c : Nat)
    (h : 100 ≤ c) : scanPagesCount link pages c = (false, 0) := by
  cases pages with
  | nil => rfl
  | cons page rest => simp [scanPagesCount, Nat.not_lt.mpr h]

theorem chunkPagesGo_fuel : ∀ (n m : Nat) (l : List FeedItem),
    l.length ≤ n → l.length ≤ m → chunkPagesGo n l = chunkPagesGo m l
  | _, _, [], _, _ => by simp [chunkPagesGo]
  | 0, _, x :: xs, hn, _ => by simp at hn
  | _, 0, x :: xs, _, hm => by simp at hm
  | n + 1, m + 1, x :: xs, hn, hm => by
      have hlen : ((x :: xs).drop 100).length = (x :: xs).length - 100 := List.length_drop 100 _
      have hd1 : ((x :: xs).drop 100).length ≤ n := by
        rw [hlen]; simp only [List.length_cons] at hn ⊢; omega
      have hd2 : ((x :: xs).drop 100).length ≤ m := by
        rw [hlen]; simp only [List.length_cons] at hm ⊢; omega
      simp only [chunkPagesGo]
      rw [chunkPagesGo_fuel n m ((x :: xs).drop 100) hd1 hd2]

theorem chunkPages_eq (l : List FeedItem) :
    chunkPages l = if l = [] then [] else l.take 100 :: chunkPages (l.drop 100) := by
  cases l with
  | nil => rfl
  | cons x xs =>
      have hlen : ((x :: xs).drop 100).length ≤ xs.length := by
        have := List.length_drop 100 (x :: xs)
        simp only [List.length_cons] at this ⊢; omega
      simp only [chunkPages, List.length_cons, chunkPagesGo, if_neg (List.cons_ne_nil x xs)]
      rw [chunkPagesGo_fuel xs.length ((x :: xs).drop 100).length ((x :: xs).drop 100) hlen
        (Nat.le_refl _)]

theorem scanPagesCount_cons (link : Str) (page : List FeedItem)
    (rest : List (List FeedItem)) (checked : Nat) (h : checked < 100) :
    scanPagesCount link (page :: rest) checked
      = (match scanPage link page checked with
         | (true, _) => (true, 1)
         | (false, c) =>
             match scanPagesCount link rest c with
             | (found, reqs) => (found, reqs + 1)) := by
  simp only [scanPagesCount]
  rw [if_pos h]

theorem scanPagesCount_chunked (link : Str) (items : List FeedItem) :
    scanPagesCount link (chunkPages items) 0
      = ((items.take 100).any (itemMatches link), if items = [] then 0 else 1) := by
  cases items with
  | nil => rfl
  | cons x xs =>
      have hne : x :: xs ≠ [] := List.cons_ne_nil x xs
      rw [chunkPages_eq, if_neg hne, if_neg hne,
        scanPagesCount_cons link _ _ 0 (by omega)]
      by_cases hm : ((x :: xs).take 100).any (itemMatches link) = true
      · obtain ⟨b, c, hsp⟩ : ∃ b c, scanPage link ((x :: xs).take 100) 0 = (b, c) :=
          ⟨_, _, rfl⟩
        have hb : b = true := by
          have hf := scanPage_found link ((x :: xs).take 100) 0
          rw [hsp] at hf
          exact hf.trans hm
        subst hb
        rw [hsp, hm]
      · have hm' : ((x :: xs).take 100).any (itemMatches link) = false :=
          Bool.eq_false_iff.mpr hm
        have hsp := scanPage_nomatch link ((x :: xs).take 100) 0 hm'
        have hrest : scanPagesCount link (chunkPages ((x :: xs).drop 100))
            (0 + ((x :: xs).take 100).length) = (false, 0) := by
          rcases Nat.le_total (x :: xs).length 100 with hle | hge
          · rw [List.drop_eq_nil_of_le hle]
            rfl
          · have h100 : (0 : Nat) + ((x :: xs).take 100).length = 100 := by
              rw [List.length_take]; omega
            rw [h100]
            exact scanPagesCount_ceiling link _ _ (by omega)
        rw [hsp, hm']
        show (match scanPagesCount link (chunkPages ((x :: xs).drop 100))
            (0 + ((x :: xs).take 100).length) with
          | (found, reqs) => (found, reqs + 1)) = (false, 1)
        rw [hrest]

theorem utf16Len_append (a b : Str) : utf16Len (a ++ b) = utf16Len a + utf16Len b := by
  simp [utf16Len]

theorem any_replicate_blank (link : Str) (n : Nat) :
    (List.replicate n blankItem).any (itemMatches link) = false := by
  rw [List.any_eq_false]
  intro x hx
  rw [List.eq_of_mem_replicate hx]
  simp [itemMatches, blankItem]

/-- C1: at text "é u" and url "u" the code stores byteStart = 2 and
byteEnd = 3, the UTF-16 code-unit offsets produced by String.indexOf and
String.length, while the UTF-8 byte offset of the first (and only)
occurrence of the url is 3 and its byte length is 1, so the facet bytes
claimed by the spec would be byteStart = 3, byteEnd = 4: the stored
bounds are not byte offsets for non-ASCII text (the text itself is left
unchanged, as claimed). -/
theorem sendBlueskyPost_facet_offsets_not_bytes :
    (buildLinkFacet ['é', ' ', 'u'] ['u']).1 = ['é', ' ', 'u'] ∧
    (buildLinkFacet ['é', ' ', 'u'] ['u']).2 = ⟨2, 3⟩ ∧
    utf8IndexOf ['u'] ['é', ' ', 'u'] = some 3 ∧
    utf8Len ['u'] = 1 ∧
    (buildLinkFacet ['é', ' ', 'u'] ['u']).2.byteStart
      ≠ (utf8IndexOf ['u'] ['é', ' ', 'u']).getD 0 := by
  decide

/-- C6 counterexample: at text "é\t" (which ends with whitespace but not
with a space character) and url "u", the code appends a separating space
anyway, so the final text is not text ++ url as the claim requires, and
the stored byteEnd (4 UTF-16 code units) differs from the byte length of
the final text (5 bytes). -/
theorem buildLinkFacet_append_counterexample :
    charIndexOf ['u'] ['é', '\t'] = none ∧
    (buildLinkFacet ['é', '\t'] ['u']).1 ≠ ['é', '\t'] ++ ['u'] ∧
    (buildLinkFacet ['é', '\t'] ['u']).2.byteEnd
      ≠ utf8Len (buildLinkFacet ['é', '\t'] ['u']).1 := by
  decide

/-- C6 as amended: when the url does not occur in the text, the final
text is the text with the url appended, separated by exactly one space
unless the text already ends with the space character U+0020, and the
facet bounds locate the appended url at the end of the final text
measured in UTF-16 code units: byteEnd is the code-unit length of the
final text and byteStart precedes it by the code-unit length of the
url. -/
theorem buildLinkFacet_append_spec (text url : Str) (h : charIndexOf url text = none) :
    (buildLinkFacet text url).1
        = text ++ (if text.getLast? = some ' ' then [] else [' ']) ++ url ∧
    (buildLinkFacet text url).2.byteEnd = utf16Len (buildLinkFacet text url).1 ∧
    (buildLinkFacet text url).2.byteStart
        = utf16Len (text ++ (if text.getLast? = some ' ' then ([] : Str) else [' '])) ∧
    (buildLinkFacet text url).2.byteStart + utf16Len url
        = (buildLinkFacet text url).2.byteEnd := by
  have hb : buildLinkFacet text url
      = (text ++ (if text.getLast? = some ' ' then ([] : Str) else [' ']) ++ url,
        ⟨utf16Len (text ++ (if text.getLast? = some ' ' then ([] : Str) else [' ']) ++ url)
            - utf16Len url,
          utf16Len (text ++ (if text.getLast? = some ' ' then ([] : Str) else [' ']) ++ url)⟩) := by
    simp only [buildLinkFacet, h]
  rw [hb]
  have h1 : utf16Len (text ++ (if text.getLast? = some ' ' then ([] : Str) else [' ']) ++ url)
      = utf16Len text
        + utf16Len (if text.getLast? = some ' ' then ([] : Str) else [' '])
        + utf16Len url := by
    rw [utf16Len_append, utf16Len_append]
  have h2 : utf16Len (text ++ (if text.getLast? = some ' ' then ([] : Str) else [' ']))
      = utf16Len text
        + utf16Len (if text.getLast? = some ' ' then ([] : Str) else [' ']) := by
    rw [utf16Len_append]
  refine ⟨rfl, rfl, ?_, ?_⟩
  · show utf16Len (text ++ (if text.getLast? = some ' ' then ([] : Str) else [' ']) ++ url)
        - utf16Len url
      = utf16Len (text ++ (if text.getLast? = some ' ' then ([] : Str) else [' ']))
    omega
  · show utf16Len (text ++ (if text.getLast? = some ' ' then ([] : Str) else [' ']) ++ url)
        - utf16Len url + utf16Len url
      = utf16Len (text ++ (if text.getLast? = some ' ' then ([] : Str) else [' ']) ++ url)
    omega

theorem buildLinkFacet_append_spec_witness :
    (buildLinkFacet "Check this out".toList "https://x.test/a".toList).1
        = "Check this out".toList
          ++ (if "Check this out".toList.getLast? = some ' ' then [] else [' '])
          ++ "https://x.test/a".toList ∧
    (buildLinkFacet "Check this out".toList "https://x.test/a".toList).2.byteEnd
        = utf16Len (buildLinkFacet "Check this out".toList "https://x.test/a".toList).1 ∧
    (buildLinkFacet "Check this out".toList "https://x.test/a".toList).2.byteStart
        = utf16Len ("Check this out".toList
          ++ (if "Check this out".toList.getLast? = some ' ' then ([] : Str) else [' '])) ∧
    (buildLinkFacet "Check this out".toList "https://x.test/a".toList).2.byteStart
        + utf16Len "https://x.test/a".toList
        = (buildLinkFacet "Check this out".toList "https://x.test/a".toList).2.byteEnd :=
  buildLinkFacet_append_spec "Check this out".toList "https://x.test/a".toList (by decide)

/-- C2: with the requested page size of 100, the scan loop stops issuing
page requests exactly when the cursor is exhausted or 100 posts have been
inspected: a reached ceiling issues no request, an empty page list issues
no request, any iteration entered below the ceiling issues at least one
request, and a history of at least 100 items whose first 100 do not match
is answered false with exactly one page request, so a duplicate beyond
the ceiling goes undetected. -/
theorem hasLinkBeenPosted_scan_bounds (link : Str) :
    (∀ (pages : List (List FeedItem)) (checked : Nat), 100 ≤ checked →
        scanPagesCount link pages checked = (false, 0)) ∧
    (∀ checked : Nat, scanPagesCount link [] checked = (false, 0)) ∧
    (∀ (page : List FeedItem) (rest : List (List FeedItem)) (checked : Nat), checked < 100 →
        1 ≤ (scanPagesCount link (page :: rest) checked).2) ∧
    (∀ items : List FeedItem, 100 ≤ items.length →
        (∀ it ∈ items.take 100, itemMatches link it = false) →
        scanPagesCount link (chunkPages items) 0 = (false, 1)) := by
  refine ⟨fun pages checked h => scanPagesCount_ceiling link pages checked h,
    fun _ => rfl, ?_, ?_⟩
  · intro page rest checked h
    rw [scanPagesCount_cons link page rest checked h]
    obtain ⟨b, c, hsp⟩ : ∃ b c, scanPage link page checked = (b, c) := ⟨_, _, rfl⟩
    rw [hsp]
    cases b
    · show 1 ≤ (match scanPagesCount link rest c with
        | (found, reqs) => (found, reqs + 1)).2
      obtain ⟨f, r, hr⟩ : ∃ f r, scanPagesCount link rest c = (f, r) := ⟨_, _, rfl⟩
      rw [hr]
      exact Nat.le_add_left 1 r
    · exact Nat.le_refl 1
  · intro items hlen hnone
    have hany : (items.take 100).any (itemMatches link) = false := by
      rw [List.any_eq_false]
      intro x hx
      rw [hnone x hx]
      exact Bool.false_ne_true
    have hne : items ≠ [] := by
      intro he
      rw [he] at hlen
      simp at hlen
    rw [scanPagesCount_chunked, hany, if_neg hne]

theorem hasLinkBeenPosted_scan_bounds_witness :
    scanPagesCount "u".toList
        (chunkPages (List.replicate 100 blankItem ++ [textItem "u".toList])) 0 = (false, 1) ∧
    itemMatches "u".toList (textItem "u".toList) = true :=
  ⟨(hasLinkBeenPosted_scan_bounds "u".toList).2.2.2
      (List.replicate 100 blankItem ++ [textItem "u".toList]) (by decide) (by decide),
    by decide⟩

/-- C3: for a history paginated at the requested page size of 100, the
scan returns true exactly when some item among the first 100 (the only
ones inspected before the ceiling) matches the link in its text or in a
link facet, and whenever such a match exists the scan issues exactly one
page request (the match is found on page one and no further page is
fetched). -/
theorem hasLinkBeenPosted_match_characterization (link : Str) (items : List FeedItem) :
    hasLinkBeenPosted items link = (items.take 100).any (itemMatches link) ∧
    ((items.take 100).any (itemMatches link) = true →
        (hasLinkBeenPostedRun items link).2 = 1) := by
  constructor
  · show (scanPagesCount link (chunkPages items) 0).1 = (items.take 100).any (itemMatches link)
    rw [scanPagesCount_chunked]
  · intro h
    have hne : items ≠ [] := by
      intro he
      rw [he] at h
      simp at h
    show (scanPagesCount link (chunkPages items) 0).2 = 1
    rw [scanPagesCount_chunked]
    simp [if_neg hne]

theorem hasLinkBeenPosted_match_characterization_witness :
    hasLinkBeenPosted [blankItem, ⟨some ⟨none, some [⟨some [⟨linkFeatureType,
        "https://y.test/z".toList⟩]⟩]⟩⟩] "https://y.test/z".toList
      = ([blankItem, ⟨some ⟨none, some [⟨some [⟨linkFeatureType,
        "https://y.test/z".toList⟩]⟩]⟩⟩].take 100).any (itemMatches "https://y.test/z".toList) ∧
    (hasLinkBeenPostedRun [blankItem, ⟨some ⟨none, some [⟨some [⟨linkFeatureType,
        "https://y.test/z".toList⟩]⟩]⟩⟩] "https://y.test/z".toList).2 = 1 :=
  ⟨(hasLinkBeenPosted_match_characterization "https://y.test/z".toList
      [blankItem, ⟨some ⟨none, some [⟨some [⟨linkFeatureType, "https://y.test/z".toList⟩]⟩]⟩⟩]).1,
    (hasLinkBeenPosted_match_characterization "https://y.test/z".toList
      [blankItem, ⟨some ⟨none, some [⟨some [⟨linkFeatureType, "https://y.test/z".toList⟩]⟩]⟩⟩]).2
      (by decide)⟩

/-- C4: the try/catch around the scan loop makes any thrown fetch or
parse error yield the answer false instead of escaping (the function is
total with result type Bool, so it never throws), and in particular when
every page fetch fails the answer is false. -/
theorem hasLinkBeenPosted_fail_open (link : Str) :
    (∀ responses, isThrown (scanPagesE link responses 0) = true →
        hasLinkBeenPostedE link responses = false) ∧
    (∀ responses, (∀ r ∈ responses, isThrown r = true) →
        hasLinkBeenPostedE link responses = false) := by
  constructor
  · intro rs h
    unfold hasLinkBeenPostedE
    rcases he : scanPagesE link rs 0 with e | b
    · rfl
    · rw [he] at h
      simp [isThrown] at h
  · intro rs h
    cases rs with
    | nil => rfl
    | cons r rest =>
        cases r with
        | error e => simp [hasLinkBeenPostedE, scanPagesE]
        | ok page =>
            have hr := h (.ok page) (List.mem_cons_self _ rest)
            simp [isThrown] at hr

theorem hasLinkBeenPosted_fail_open_witness :
    hasLinkBeenPostedE "u".toList [.error (), .error ()] = false ∧
    hasLinkBeenPostedE "u".toList [.error ()] = false :=
  ⟨(hasLinkBeenPosted_fail_open "u".toList).2 [.error (), .error ()] (by decide),
    (hasLinkBeenPosted_fail_open "u".toList).1 [.error ()] (by decide)⟩

/-- C10: every page item advances postsChecked before its record is
examined — an item without a readable record is counted and then skipped
without matching — so a page scanned without a match always contributes
its full item count toward the ceiling; consequently 100 record-less
items exhaust the ceiling and hide a matching post sitting right behind
them, a post that on its own would be found. -/
theorem scan_counts_recordless_items (link : Str) (h : link ≠ []) :
    (∀ (rest : List FeedItem) (c : Nat),
        scanPage link (blankItem :: rest) c = scanPage link rest (c + 1)) ∧
    (∀ (l : List FeedItem) (c : Nat), (scanPage link l c).1 = false →
        (scanPage link l c).2 = c + l.length) ∧
    hasLinkBeenPosted (List.replicate 100 blankItem ++ [textItem link]) link = false ∧
    hasLinkBeenPosted [textItem link] link = true := by
  have hempty : link.isEmpty = false := by
    cases link with
    | nil => exact absurd rfl h
    | cons a l => rfl
  have hmatch : itemMatches link (textItem link) = true := by
    simp [itemMatches, textItem, postMatches, hempty, charIndexOf_self]
  refine ⟨fun rest c => rfl, ?_, ?_, ?_⟩
  · intro l c hf
    have hany : l.any (itemMatches link) = false := by
      rw [← scanPage_found link l c]
      exact hf
    rw [scanPage_nomatch link l c hany]
  · show (scanPagesCount link (chunkPages (List.replicate 100 blankItem ++ [textItem link])) 0).1
        = false
    rw [scanPagesCount_chunked]
    have htake : (List.replicate 100 blankItem ++ [textItem link]).take 100
        = List.replicate 100 blankItem := by
      have hl : (List.replicate 100 blankItem).length = 100 := List.length_replicate 100 _
      exact List.take_left' hl
    simp only [htake]
    exact any_replicate_blank link 100
  · show (scanPagesCount link (chunkPages [textItem link]) 0).1 = true
    rw [scanPagesCount_chunked]
    simp [hmatch]

/-- C5 counterexample: in a healthy environment whose run reaches
submission, the network trace contains two authentication round-trips —
one performed by postLatestToBluesky before the duplicate scan and a
second performed inside sendBlueskyPost before the record creation —
so the round-trips are not exactly one authentication followed by the
page fetches and the submission. -/
theorem postLatest_two_auths_counterexample :
    (postLatestToBlueskyM envFresh).2
        = [.readFeed, .auth, .fetchPage, .auth, .createRecord] ∧
    (postLatestToBlueskyM envFresh).2.count Ev.auth = 2 := by
  decide

/-- C5 as amended: for every run that reaches submission, the effect
trace is exactly the local feed read, one authentication, the successive
history-page fetches of the duplicate scan, a second authentication
performed by the post-sending step, and one final record-creation
submission, in that order; the feed read is not a network round-trip and
precedes every network call. -/
theorem postLatest_network_trace (env : Env) (it : RssItem) (rest : List RssItem)
    (hfeed : env.feedItems = some (it :: rest))
    (hlink : (it.link.getD []).isEmpty = false)
    (hu : truthyS env.username = true)
    (hp : truthyS env.password = true)
    (ha : env.authOk = true)
    (hdup : hasLinkBeenPosted env.history (it.link.getD []) = false) :
    (postLatestToBlueskyM env).2
        = [Ev.readFeed, Ev.auth]
          ++ List.replicate (hasLinkBeenPostedRun env.history (it.link.getD [])).2 Ev.fetchPage
          ++ [Ev.auth, Ev.createRecord] ∧
    isNetwork Ev.readFeed = false := by
  have hGA : getBlueskyAgentM env = (.ok (), [.auth]) := by
    simp [getBlueskyAgentM, hu, hp, ha]
  obtain ⟨r, hrun⟩ : ∃ r, hasLinkBeenPostedRun env.history (it.link.getD []) = (false, r) := by
    obtain ⟨f, r, h0⟩ : ∃ f r, hasLinkBeenPostedRun env.history (it.link.getD []) = (f, r) :=
      ⟨_, _, rfl⟩
    have hf : f = false := by
      have hd := hdup
      unfold hasLinkBeenPosted at hd
      rw [h0] at hd
      exact hd
    exact ⟨r, by rw [h0, hf]⟩
  have hpt : (if (it.title.getD []).isEmpty then newPostFallback
      else it.title.getD []).isEmpty = false := by
    cases ht : (it.title.getD []).isEmpty with
    | true => simp [ht, newPostFallback]
    | false => simp [ht]
  have hsend : (sendBlueskyPostM env (if (it.title.getD []).isEmpty then newPostFallback
      else it.title.getD []) (it.link.getD [])).2 = [Ev.auth, Ev.createRecord] := by
    have hnp : newPostFallback ≠ [] := by decide
    have hnpe : newPostFallback.isEmpty = false := by decide
    cases ht : (it.title.getD []).isEmpty with
    | true =>
        cases hc : env.createOk with
        | true => simp [sendBlueskyPostM, ht, hGA, hc, hnp, hnpe]
        | false => simp [sendBlueskyPostM, ht, hGA, hc, hnp, hnpe]
    | false =>
        have htne : it.title.getD [] ≠ [] := by
          intro he
          rw [he] at ht
          simp at ht
        cases hc : env.createOk with
        | true => simp [sendBlueskyPostM, ht, hGA, hc, htne]
        | false => simp [sendBlueskyPostM, ht, hGA, hc, htne]
  refine ⟨?_, rfl⟩
  obtain ⟨res, evs3, hs⟩ : ∃ res evs3, sendBlueskyPostM env
      (if (it.title.getD []).isEmpty then newPostFallback else it.title.getD [])
      (it.link.getD []) = (res, evs3) := ⟨_, _, rfl⟩
  have hevs3 : evs3 = [Ev.auth, Ev.createRecord] := by
    rw [hs] at hsend
    exact hsend
  subst hevs3
  simp only [postLatestToBlueskyM, hfeed, getLatestRSSPostM, hlink, Bool.false_eq_true,
    if_false, hGA, hrun, hs]
  cases res with
  | error e => simp [hrun, List.replicate]
  | ok rec0 => simp [hrun, List.replicate]

theorem postLatest_network_trace_witness :
    (postLatestToBlueskyM envFresh).2
        = [Ev.readFeed, Ev.auth]
          ++ List.replicate
              (hasLinkBeenPostedRun envFresh.history "https://x.test/a".toList).2 Ev.fetchPage
          ++ [Ev.auth, Ev.createRecord] ∧
    isNetwork Ev.readFeed = false :=
  postLatest_network_trace envFresh ⟨some "T".toList, some "https://x.test/a".toList⟩ []
    (by decide) (by decide) (by decide) (by decide) (by decide) (by decide)

/-- C7: when the duplicate scan reports the latest entry's link as
already posted, the run returns successfully and its trace contains no
record-creation round-trip: the publish step is an idempotent no-op. -/
theorem postLatest_skips_when_duplicate (env : Env) (it : RssItem) (rest : List RssItem)
    (hfeed : env.feedItems = some (it :: rest))
    (hlink : (it.link.getD []).isEmpty = false)
    (hu : truthyS env.username = true)
    (hp : truthyS env.password = true)
    (ha : env.authOk = true)
    (hdup : hasLinkBeenPosted env.history (it.link.getD []) = true) :
    (postLatestToBlueskyM env).1 = .ok () ∧
    Ev.createRecord ∉ (postLatestToBlueskyM env).2 := by
  have hGA : getBlueskyAgentM env = (.ok (), [.auth]) := by
    simp [getBlueskyAgentM, hu, hp, ha]
  obtain ⟨r, hrun⟩ : ∃ r, hasLinkBeenPostedRun env.history (it.link.getD []) = (true, r) := by
    obtain ⟨f, r, h0⟩ : ∃ f r, hasLinkBeenPostedRun env.history (it.link.getD []) = (f, r) :=
      ⟨_, _, rfl⟩
    have hf : f = true := by
      have hd := hdup
      unfold hasLinkBeenPosted at hd
      rw [h0] at hd
      exact hd
    exact ⟨r, by rw [h0, hf]⟩
  simp only [postLatestToBlueskyM, hfeed, getLatestRSSPostM, hlink, Bool.false_eq_true,
    if_false, hGA, hrun, if_true]
  constructor
  · trivial
  · simp [List.mem_replicate]

theorem postLatest_skips_when_duplicate_witness :
    (postLatestToBlueskyM envDup).1 = .ok () ∧
    Ev.createRecord ∉ (postLatestToBlueskyM envDup).2 :=
  postLatest_skips_when_duplicate envDup ⟨some "T".toList, some "https://x.test/a".toList⟩ []
    (by decide) (by decide) (by decide) (by decide) (by decide) (by decide)

/-- C8: when either credential is absent (or empty, hence falsy),
establishing the agent fails with ConfigError having issued no network
call, and the whole run's trace is just the local feed read — zero
network round-trips — with the run failing, and failing specifically
with ConfigError whenever the feed itself is well-formed with a
non-empty link. -/
theorem missing_credentials_config_error (env : Env)
    (h : truthyS env.username = false ∨ truthyS env.password = false) :
    getBlueskyAgentM env = (.error .configError, []) ∧
    (postLatestToBlueskyM env).2 = [Ev.readFeed] ∧
    isNetwork Ev.readFeed = false ∧
    (∀ (it : RssItem) (rest : List RssItem), env.feedItems = some (it :: rest) →
        (it.link.getD []).isEmpty = false →
        (postLatestToBlueskyM env).1 = .error .configError) := by
  have hGA : getBlueskyAgentM env = (.error .configError, []) := by
    rcases h with h | h
    · simp [getBlueskyAgentM, h]
    · by_cases hu : truthyS env.username = false
      · simp [getBlueskyAgentM, hu]
      · simp [getBlueskyAgentM, hu, h]
  refine ⟨hGA, ?_, rfl, ?_⟩
  · rcases hfe : getLatestRSSPostM env.feedItems with e | entry
    · simp [postLatestToBlueskyM, hfe]
    · by_cases hl : entry.link.isEmpty = true
      · simp [postLatestToBlueskyM, hfe, hl]
      · simp [postLatestToBlueskyM, hfe, hl, hGA]
  · intro it rest hfeed hlink
    simp [postLatestToBlueskyM, hfeed, getLatestRSSPostM, hlink, hGA]

theorem missing_credentials_config_error_witness :
    getBlueskyAgentM envNoUser = (.error .configError, []) ∧
    (postLatestToBlueskyM envNoUser).2 = [Ev.readFeed] ∧
    (postLatestToBlueskyM envNoUser).1 = .error .configError :=
  ⟨(missing_credentials_config_error envNoUser (Or.inl (by decide))).1,
    (missing_credentials_config_error envNoUser (Or.inl (by decide))).2.1,
    (missing_credentials_config_error envNoUser (Or.inl (by decide))).2.2.2
      ⟨some "T".toList, some "https://x.test/a".toList⟩ [] (by decide) (by decide)⟩

/-- C9: the feed reader returns exactly the entry at position 0 for any
document with at least one item, never aggregating the remaining
entries; a document with a missing items field or zero items fails with
the parse error; and an entry whose link parses as empty is returned
normally with an empty link rather than failing. -/
theorem getLatestRSSPost_first_entry :
    (∀ (it : RssItem) (rest : List RssItem),
        getLatestRSSPostM (some (it :: rest)) = .ok ⟨it.title.getD [], it.link.getD []⟩) ∧
    getLatestRSSPostM (some []) = .error .parseError ∧
    getLatestRSSPostM none = .error .parseError ∧
    (∀ (t : Option Str) (rest : List RssItem),
        getLatestRSSPostM (some (⟨t, some []⟩ :: rest)) = .ok ⟨t.getD [], []⟩) :=
  ⟨fun _ _ => rfl, rfl, rfl, fun _ _ => rfl⟩

theorem scan_counts_recordless_items_witness :
    scanPage "u".toList (blankItem :: []) 0 = scanPage "u".toList [] (0 + 1) ∧
    hasLinkBeenPosted (List.replicate 100 blankItem ++ [textItem "u".toList]) "u".toList
        = false ∧
    hasLinkBeenPosted [textItem "u".toList] "u".toList = true :=
  ⟨(scan_counts_recordless_items "u".toList (by decide)).1 [] 0,
    (scan_counts_recordless_items "u".toList (by decide)).2.2.1,
    (scan_counts_recordless_items "u".toList (by decide)).2.2.2⟩
